import Mathlib

/-!
Verification of the music-knowledge-base core: feature normalizer
(`build_kb_from_acousticbrainz_dump.py`), fact-store builder
(`build_knowledge_base`) and query engine (`knowledge_base_wrapper.py`).

Python dictionaries are shallowly embedded as insertion-ordered association
lists (`List (String × α)`), JSON values as the inductive type `JVal`,
Python floats as exact rationals (the claims under study never depend on
binary floating-point rounding), and a Python function that can raise an
uncaught exception is embedded as an `Option`-returning function where
`none` marks the exception.
-/

/-- Insertion-ordered association-list lookup: `d.get(k)` on a Python dict. -/
def alookup {α : Type} : List (String × α) → String → Option α
  | [], _ => none
  | (k', v) :: rest, k => if k' = k then some v else alookup rest k

/-- `d[k] = v` on a Python dict: replace in place (keeping the original
position of the key, as CPython does) or append a fresh binding. -/
def aset {α : Type} : List (String × α) → String → α → List (String × α)
  | [], k, v => [(k, v)]
  | (k', v') :: rest, k, v =>
      if k' = k then (k', v) :: rest else (k', v') :: aset rest k v

/-- `d.setdefault(k, []).append(v)` on a Python dict of lists. -/
def apushAt {α : Type} : List (String × List α) → String → α → List (String × List α)
  | [], k, v => [(k, [v])]
  | (k', l) :: rest, k, v =>
      if k' = k then (k', l ++ [v]) :: rest else (k', l) :: apushAt rest k v

/-- Map a function over the values of an association list. -/
def mapVal {α β : Type} (f : α → β) (m : List (String × α)) : List (String × β) :=
  m.map (fun p => (p.1, f p.2))

/-- The keys of an association list, in insertion order. -/
def akeys {α : Type} (m : List (String × α)) : List String :=
  m.map Prod.fst

/-- All elements of all value-lists of an association list of lists. -/
def aelems {α : Type} (m : List (String × List α)) : List α :=
  (m.map Prod.snd).flatten

/-- Worker for `dedupKeepFirst`: keep elements not yet seen. -/
def dedupGo {α : Type} [DecidableEq α] (seen : List α) : List α → List α
  | [] => []
  | x :: xs => if x ∈ seen then dedupGo seen xs else x :: dedupGo (x :: seen) xs

/-- `list(dict.fromkeys(l))`: deduplicate keeping the first occurrence of
each element, preserving first-seen order. -/
def dedupKeepFirst {α : Type} [DecidableEq α] (l : List α) : List α :=
  dedupGo [] l

/-- Python whitespace stripping on a character list: drop leading and
trailing whitespace. -/
def pyStripL (cs : List Char) : List Char :=
  ((cs.dropWhile Char.isWhitespace).reverse.dropWhile Char.isWhitespace).reverse

/-- Python `s.strip()` (ASCII whitespace; the claims exercise no exotic
Unicode whitespace). -/
def pyStrip (s : String) : String :=
  ⟨pyStripL s.data⟩

/-- Python `c.lower()` on one character (ASCII; no claim lowercases
non-ASCII letters). -/
def pyLowerChar (c : Char) : Char :=
  if 'A' ≤ c ∧ c ≤ 'Z' then Char.ofNat (c.toNat + 32) else c

/-- Python `s.lower()`. -/
def pyLowerStr (s : String) : String :=
  ⟨s.data.map pyLowerChar⟩

/-- Python's `needle in hay` on lists of characters: some tail of `hay`
starts with `needle`. -/
def subListOf (xs ys : List Char) : Bool :=
  ys.tails.any (fun t => xs.isPrefixOf t)

/-- Python's substring test `needle in hay` on strings. -/
def strIn (needle hay : String) : Bool :=
  subListOf needle.toList hay.toList

/-- JSON values (the result of `json.load`): the data the normalizer and the
query engine operate on. -/
inductive JVal : Type where
  | null : JVal
  | bool : Bool → JVal
  | num : ℚ → JVal
  | str : String → JVal
  | arr : List JVal → JVal
  | obj : List (String × JVal) → JVal

/-- Python truthiness of a JSON value (`if x:`). -/
def truthy : JVal → Bool
  | .null => false
  | .bool b => b
  | .num q => decide (q ≠ 0)
  | .str s => decide (s ≠ "")
  | .arr l => !l.isEmpty
  | .obj l => !l.isEmpty

/-- `isinstance(x, dict)`. -/
def isObj : JVal → Bool
  | .obj _ => true
  | _ => false

/-- `x is None` (JSON null and Python `None` coincide in this embedding). -/
def isNull : JVal → Bool
  | .null => true
  | _ => false

/-- `fields.get(k, d)` where `fields` are the entries of a dict. -/
def objGetD (fields : List (String × JVal)) (k : String) (d : JVal) : JVal :=
  match alookup fields k with
  | some v => v
  | none => d

/-- `x.get(k, d)` on a value that may not be a dict: `none` models the
`AttributeError` raised when `x` is not a dict. -/
def pyDictGetD (x : JVal) (k : String) (d : JVal) : Option JVal :=
  match x with
  | .obj fields => some (objGetD fields k d)
  | _ => none

/-- `_get_nested(data, *keys)` from `build_kb_from_acousticbrainz_dump.py`:
safe nested traversal, `None` at any missing link or non-dict intermediate. -/
def getNested (data : JVal) : List String → JVal
  | [] => data
  | k :: rest =>
      match data with
      | .obj fields => getNested (objGetD fields k .null) rest
      | _ => .null

/-- Python's short-circuiting `a or b` applied to JSON values. -/
def pyOr (a b : JVal) : JVal :=
  if truthy a then a else b

/-- Digits-to-Nat conversion; `none` when a non-digit appears. -/
def digitsToNat : List Char → Option Nat
  | [] => some 0
  | c :: cs =>
      if c.isDigit then
        (digitsToNat cs).map (fun n => (c.toNat - 48) * 10 ^ cs.length + n)
      else
        none

/-- Python `float(s)` on a string, for plain decimal forms
`[+|-] digits [. digits]` (scientific notation, `inf` and `nan` are not
modelled; no claim exercises them).  `none` models `ValueError`. -/
def parseDecimal (s : String) : Option ℚ :=
  let cs := pyStripL s.data
  let (sign, body) : Int × List Char :=
    match cs with
    | '+' :: rest => (1, rest)
    | '-' :: rest => (-1, rest)
    | _ => (1, cs)
  match body.splitOn '.' with
  | [ip] =>
      if ip ≠ [] then (digitsToNat ip).map (fun n => mkRat (sign * n) 1) else none
  | [ip, fp] =>
      if ip ≠ [] ∨ fp ≠ [] then
        match digitsToNat ip, digitsToNat fp with
        | some i, some f =>
            some (mkRat (sign * (i * 10 ^ fp.length + f)) (10 ^ fp.length))
        | _, _ => none
      else none
  | _ => none

/-- Python `int(s)` on a string: optional sign and digits only. -/
def parseIntStr (s : String) : Option Int :=
  let cs := pyStripL s.data
  let (sign, body) : Int × List Char :=
    match cs with
    | '+' :: rest => (1, rest)
    | '-' :: rest => (-1, rest)
    | _ => (1, cs)
  if body ≠ [] then (digitsToNat body).map (fun n => sign * n) else none

/-- Python `int(q)` on a number: truncation toward zero. -/
def ratTrunc (q : ℚ) : Int :=
  Int.tdiv q.num q.den

/-- Python `float(x)`: `none` models the `TypeError`/`ValueError` raised on
`None`, lists and dicts, and on non-numeric strings. -/
def pyFloat : JVal → Option ℚ
  | .num q => some q
  | .bool b => some (if b then 1 else 0)
  | .str s => parseDecimal s
  | _ => none

/-- Python `int(x)`: truncates numbers, parses integer strings. -/
def pyInt : JVal → Option Int
  | .num q => some (ratTrunc q)
  | .bool b => some (if b then 1 else 0)
  | .str s => parseIntStr s
  | _ => none

/-- Python `str(x)`.  The exact `repr` of a non-string is irrelevant to every
claim (no claim applies `str` to a non-string value); strings map to
themselves, which is the only case exercised. -/
def pyStr : JVal → String
  | .str s => s
  | .null => "None"
  | .bool b => if b then "True" else "False"
  | .num q => if q.den = 1 then toString q.num else toString q.num ++ "/" ++ toString q.den
  | .arr _ => "[...]"
  | .obj _ => "\x7b...\x7d"

/-- `x.lower()`: `none` models the `AttributeError` on a non-string. -/
def pyLower : JVal → Option String
  | .str s => some (pyLowerStr s)
  | _ => none

/-! ### Feature normalizer (`build_kb_from_acousticbrainz_dump.py`) -/

/-- The `audio_features` record produced by `parse_lowlevel_json` (and the
shape read back by `build_knowledge_base` via `song["audio_features"]`). -/
structure AudioFeatures : Type where
  tempo : Option ℚ
  key : Option String
  mode : Option String
  time_signature : Option Int
  loudness : Option ℚ
  duration : Option ℚ
deriving DecidableEq, Repr

/-- The all-`None` audio-features record (a missing `audio_features` dict). -/
def AudioFeatures.empty : AudioFeatures :=
  ⟨none, none, none, none, none, none⟩

/-- `float(v) if v is not None else None`: outer `none` is an uncaught
exception, the inner option is the Python value (`None` or a float). -/
def convOptFloat (v : JVal) : Option (Option ℚ) :=
  if isNull v then some none else (pyFloat v).map some

/-- `int(v) if v is not None else None`, with the same convention. -/
def convOptInt (v : JVal) : Option (Option Int) :=
  if isNull v then some none else (pyInt v).map some

/-- The `key_str` computation of `parse_lowlevel_json`: inside `if key_key:`,
`scale = (key_scale or "major").lower()` then the f-string
`f"{key_key} {scale}"`. -/
def keyStrOf (key_key key_scale : JVal) : Option (Option String) :=
  if truthy key_key then
    (pyLower (pyOr key_scale (.str "major"))).map (fun sc => some (pyStr key_key ++ " " ++ sc))
  else some none

/-- The `mode` field of `parse_lowlevel_json`:
`(key_scale or "major").lower() if key_scale else None`. -/
def modeOf (key_scale : JVal) : Option (Option String) :=
  if truthy key_scale then (pyLower (pyOr key_scale (.str "major"))).map some
  else some none

/-- `parse_lowlevel_json` from `build_kb_from_acousticbrainz_dump.py`:
extract `audio_features` from low-level JSON.  `none` models an uncaught
exception (e.g. `float` applied to a non-numeric string). -/
def parse_lowlevel_json (data : JVal) : Option AudioFeatures :=
  let bpm := getNested data ["rhythm", "bpm"]
  let key_key := getNested data ["tonal", "key_key"]
  let key_scale := getNested data ["tonal", "key_scale"]
  let loudness := pyOr (getNested data ["lowlevel", "average_loudness"])
      (getNested data ["metadata", "audio_properties", "replay_gain"])
  let duration := getNested data ["metadata", "audio_properties", "length"]
  let time_sig := pyOr (getNested data ["rhythm", "beats_count"])
      (getNested data ["rhythm", "time_signature"])
  match keyStrOf key_key key_scale, modeOf key_scale, convOptFloat bpm,
      convOptInt time_sig, convOptFloat loudness, convOptFloat duration with
  | some k, some m, some t, some ts, some l, some d =>
      some { tempo := t, key := k, mode := m, time_signature := ts, loudness := l, duration := d }
  | _, _, _, _, _, _ => none

/-- The four genre classifier fields scanned by `parse_highlevel_json`. -/
def genreFields : List String :=
  ["genre_rosamerica", "genre_electronic", "genre_dortmund", "genre_tzanetakis"]

/-- The field loop of `parse_highlevel_json`: for each field, accept
`str(value).lower()` when the classifier is a dict, `value` and
`probability` are truthy and `float(probability) > 0.3`. -/
def genreLoop (data : JVal) : List String → List String → Option (List String)
  | [], acc => some acc
  | f :: rest, acc =>
      match pyDictGetD data f .null with
      | none => none
      | some genre_obj =>
          match genre_obj with
          | .obj fields =>
              let value := objGetD fields "value" .null
              let prob := objGetD fields "probability" (.num 0)
              if truthy value && truthy prob then
                match pyFloat prob with
                | none => none
                | some p =>
                    if p > mkRat 3 10 then genreLoop data rest (acc ++ [pyLowerStr (pyStr value)])
                    else genreLoop data rest acc
              else genreLoop data rest acc
          | _ => genreLoop data rest acc

/-- `parse_highlevel_json` from `build_kb_from_acousticbrainz_dump.py`:
extract the deduplicated genre list from high-level JSON. -/
def parse_highlevel_json (data : JVal) : Option (List String) :=
  (genreLoop data genreFields []).map dedupKeepFirst

/-- The `{artist, track, album}` record of `parse_metadata_from_dump`. -/
structure DumpMeta : Type where
  artist : String
  track : String
  album : String
deriving DecidableEq, Repr

/-- One tag field of `parse_metadata_from_dump`: first element of a
non-empty list, or a trimmed string, else the empty default. -/
def tagField (tags : List (String × JVal)) (key : String) : String :=
  match objGetD tags key .null with
  | .arr (v :: _) => pyStrip (pyStr v)
  | .str s => pyStrip s
  | _ => ""

/-- `parse_metadata_from_dump` from `build_kb_from_acousticbrainz_dump.py`.
`none` models the `AttributeError` when `root` is not a dict (the function
is typed `root: dict`, so callers never hit it). -/
def parse_metadata_from_dump (root : JVal) : Option DumpMeta :=
  match pyDictGetD root "metadata" (.obj []) with
  | none => none
  | some meta =>
      let tags := match meta with
        | .obj mfields => objGetD mfields "tags" (.obj [])
        | _ => .obj []
      match tags with
      | .obj tfields => some ⟨tagField tfields "artist", tagField tfields "title", tagField tfields "album"⟩
      | _ => some ⟨"", "", ""⟩

/-- `_value_if_confident(obj, min_prob)` from
`build_kb_from_acousticbrainz_dump.py` (the Python default for `min_prob`
is `0.5`; call sites pass it explicitly here).  The function is total: its
`try/except` catches the `TypeError`/`ValueError` from `float(prob)`. -/
def value_if_confident (obj : JVal) (min_prob : ℚ) : Option String :=
  match obj with
  | .obj fields =>
      let val := objGetD fields "value" .null
      let prob := objGetD fields "probability" (.num 0)
      if isNull val then none
      else
        match pyFloat prob with
        | none => none
        | some p => if p ≥ min_prob then some (pyLowerStr (pyStrip (pyStr val))) else none
  | _ => none

/-- The output record of `parse_highlevel_extra`. -/
structure HighExtra : Type where
  danceable : Option String
  voice_instrumental : Option String
  timbre : Option String
  moods : List String
  duration : Option ℚ
  loudness : Option ℚ
deriving DecidableEq, Repr

/-- The six mood classifier fields and their positive labels, in the fixed
declaration order of `parse_highlevel_extra`. -/
def moodFields : List (String × String) :=
  [("mood_relaxed", "relaxed"), ("mood_sad", "sad"), ("mood_happy", "happy"),
   ("mood_party", "party"), ("mood_acoustic", "acoustic"), ("mood_electronic", "electronic")]

/-- One single-value high-level feature of `parse_highlevel_extra`:
`val = _value_if_confident(high_data.get(field)); if val: out[key] = val`. -/
def confidentField (high_data : JVal) (field : String) : Option (Option String) :=
  match pyDictGetD high_data field .null with
  | none => none
  | some obj =>
      match value_if_confident obj (mkRat 1 2) with
      | some s => if s ≠ "" then some (some s) else some none
      | none => some none

/-- The mood loop of `parse_highlevel_extra`: append each positive label
whose classifier's confident value equals the label itself. -/
def moodLoop (high_data : JVal) : List (String × String) → Option (List String)
  | [] => some []
  | (field, label) :: rest =>
      match pyDictGetD high_data field .null with
      | none => none
      | some obj =>
          (moodLoop high_data rest).map (fun ms =>
            if value_if_confident obj (mkRat 1 2) = some label then label :: ms else ms)

/-- The `duration`/`loudness` block of `parse_highlevel_extra`: read
`metadata.audio_properties`, converting with `float` under `try/except`
(conversion failures leave the field `None`). -/
def apDurLoud (root : JVal) : Option (Option ℚ × Option ℚ) :=
  match pyDictGetD root "metadata" (.obj []) with
  | none => none
  | some meta =>
      let ap := match meta with
        | .obj mfields => objGetD mfields "audio_properties" (.obj [])
        | _ => .obj []
      match ap with
      | .obj apf =>
          let lv := objGetD apf "length" .null
          let rv := objGetD apf "replay_gain" .null
          some (if isNull lv then none else pyFloat lv,
                if isNull rv then none else pyFloat rv)
      | _ => some (none, none)

/-- `parse_highlevel_extra(root, high_data)` from
`build_kb_from_acousticbrainz_dump.py`.  `none` models the
`AttributeError` when an argument is not a dict. -/
def parse_highlevel_extra (root high_data : JVal) : Option HighExtra :=
  match apDurLoud root with
  | none => none
  | some (dur, loud) =>
      match confidentField high_data "danceability",
            confidentField high_data "voice_instrumental",
            confidentField high_data "timbre",
            moodLoop high_data moodFields with
      | some d, some vi, some tb, some ms =>
          some { danceable := d, voice_instrumental := vi, timbre := tb,
                 moods := ms, duration := dur, loudness := loud }
      | _, _, _, _ => none

/-- `tempo_bucket(tempo)` from `build_kb_from_acousticbrainz_dump.py`:
`t = int(tempo); base = (t // 10) * 10; f"{base}-{base + 10}"`. -/
def tempo_bucket (tempo : Option ℚ) : Option String :=
  match tempo with
  | none => none
  | some t =>
      let ti := ratTrunc t
      let base := (Int.fdiv ti 10) * 10
      some (toString base ++ "-" ++ toString (base + 10))

/-! ### Fact-store builder (`build_knowledge_base`) -/

/-- One input song record, in the shape consumed by `build_knowledge_base`
(`{mbid, artist, track, album, audio_features, genres, danceable,
voice_instrumental, timbre, moods}`); a missing `mbid` key and a missing
string field read back via `.get(k, "")` are the `none`/`""` defaults. -/
structure SongRecord : Type where
  mbid : Option String
  artist : String
  track : String
  album : String
  audio_features : AudioFeatures
  genres : List String
  danceable : Option String
  voice_instrumental : Option String
  timbre : Option String
  moods : List String
deriving DecidableEq, Repr

/-- One entry of the song registry `kb["songs"]`. -/
structure SongEntry : Type where
  mbid : String
  artist : String
  track : String
  album : String
deriving DecidableEq, Repr

/-- The ten fact tables of `kb["facts"]` (a Python dict literal with exactly
these keys, never extended, embedded as a structure). -/
structure KBFacts : Type where
  has_tempo : List (String × ℚ)
  has_key : List (String × String)
  has_mode : List (String × String)
  has_loudness : List (String × ℚ)
  has_duration : List (String × ℚ)
  has_genre : List (String × List String)
  has_danceable : List (String × String)
  has_voice_instrumental : List (String × String)
  has_timbre : List (String × String)
  has_mood : List (String × List String)
deriving DecidableEq, Repr

/-- The six inverted indexes of `kb["indexes"]`. -/
structure KBIndexes : Type where
  by_tempo_range : List (String × List String)
  by_genre : List (String × List String)
  by_danceable : List (String × List String)
  by_voice_instrumental : List (String × List String)
  by_timbre : List (String × List String)
  by_mood : List (String × List String)
deriving DecidableEq, Repr

/-- The three-part knowledge base `{songs, facts, indexes}`. -/
structure KB : Type where
  songs : List (String × SongEntry)
  facts : KBFacts
  indexes : KBIndexes
deriving DecidableEq, Repr

/-- The empty knowledge base the builder starts from. -/
def KB.empty : KB :=
  ⟨[], ⟨[], [], [], [], [], [], [], [], [], []⟩, ⟨[], [], [], [], [], []⟩⟩

/-- The genre/mood loop of `build_knowledge_base`: for each string `v`,
`facts[ft].setdefault(sid, []).append(v)` and, when `v.lower().strip()` is
non-empty, `indexes[ix].setdefault(v.lower().strip(), []).append(sid)`.
The pair carries (fact table, index table). -/
def listFactFold (sid : String) (vs : List String)
    (pr : List (String × List String) × List (String × List String)) :
    List (String × List String) × List (String × List String) :=
  vs.foldl (fun pr v =>
    let hg := apushAt pr.1 sid v
    let n := pyStrip (pyLowerStr v)
    (hg, if n ≠ "" then apushAt pr.2 n sid else pr.2)) pr

/-- One iteration of the song loop of `build_knowledge_base`: skip falsy
`mbid`, register the song, then write each present fact and index entry. -/
def buildStep (st : KB) (song : SongRecord) : KB :=
  match song.mbid with
  | none => st
  | some sid =>
      if sid = "" then st
      else
        let af := song.audio_features
        let genrePair := listFactFold sid song.genres (st.facts.has_genre, st.indexes.by_genre)
        let moodPair := listFactFold sid song.moods (st.facts.has_mood, st.indexes.by_mood)
        { songs := aset st.songs sid ⟨sid, song.artist, song.track, song.album⟩
          facts :=
            { has_tempo :=
                match af.tempo with
                | some t => aset st.facts.has_tempo sid t
                | none => st.facts.has_tempo
              has_key :=
                match af.key with
                | some k => if k ≠ "" then aset st.facts.has_key sid k else st.facts.has_key
                | none => st.facts.has_key
              has_mode :=
                match af.mode with
                | some m => if m ≠ "" then aset st.facts.has_mode sid m else st.facts.has_mode
                | none => st.facts.has_mode
              has_loudness :=
                match af.loudness with
                | some l => aset st.facts.has_loudness sid l
                | none => st.facts.has_loudness
              has_duration :=
                match af.duration with
                | some d => aset st.facts.has_duration sid d
                | none => st.facts.has_duration
              has_genre := genrePair.1
              has_danceable :=
                match song.danceable with
                | some s => if s ≠ "" then aset st.facts.has_danceable sid s else st.facts.has_danceable
                | none => st.facts.has_danceable
              has_voice_instrumental :=
                match song.voice_instrumental with
                | some s => if s ≠ "" then aset st.facts.has_voice_instrumental sid s
                            else st.facts.has_voice_instrumental
                | none => st.facts.has_voice_instrumental
              has_timbre :=
                match song.timbre with
                | some s => if s ≠ "" then aset st.facts.has_timbre sid s else st.facts.has_timbre
                | none => st.facts.has_timbre
              has_mood := moodPair.1 }
          indexes :=
            { by_tempo_range :=
                match af.tempo with
                | some t =>
                    match tempo_bucket (some t) with
                    | some b => if b ≠ "" then apushAt st.indexes.by_tempo_range b sid
                                else st.indexes.by_tempo_range
                    | none => st.indexes.by_tempo_range
                | none => st.indexes.by_tempo_range
              by_genre := genrePair.2
              by_danceable :=
                match song.danceable with
                | some s => if s ≠ "" then apushAt st.indexes.by_danceable s sid
                            else st.indexes.by_danceable
                | none => st.indexes.by_danceable
              by_voice_instrumental :=
                match song.voice_instrumental with
                | some s => if s ≠ "" then apushAt st.indexes.by_voice_instrumental s sid
                            else st.indexes.by_voice_instrumental
                | none => st.indexes.by_voice_instrumental
              by_timbre :=
                match song.timbre with
                | some s => if s ≠ "" then apushAt st.indexes.by_timbre s sid
                            else st.indexes.by_timbre
                | none => st.indexes.by_timbre
              by_mood := moodPair.2 } }

/-- `build_knowledge_base(songs)` from
`build_kb_from_acousticbrainz_dump.py`: fold all records, then deduplicate
the `has_genre` and `has_mood` fact-lists in place
(`list(dict.fromkeys(...))`), leaving indexes untouched. -/
def build_knowledge_base (songs : List SongRecord) : KB :=
  let st := songs.foldl buildStep KB.empty
  { st with
    facts :=
      { st.facts with
        has_genre := mapVal dedupKeepFirst st.facts.has_genre
        has_mood := mapVal dedupKeepFirst st.facts.has_mood } }

/-! ### Query engine (`knowledge_base_wrapper.py`) -/

/-- A loaded fact store as the `KnowledgeBase` wrapper sees it: the three
mappings read verbatim from the persisted JSON document. -/
structure Store : Type where
  songs : List (String × SongEntry)
  facts : List (String × List (String × JVal))
  indexes : List (String × List (String × JVal))

/-- `get_fact(fact_type, mbid)` from `knowledge_base_wrapper.py`:
`self.facts.get(fact_type, {}).get(mbid)`; `JVal.null` is Python's `None`,
the absent marker. -/
def get_fact (kb : Store) (fact_type mbid : String) : JVal :=
  match alookup ((alookup kb.facts fact_type).getD []) mbid with
  | some v => v
  | none => .null

/-- `has_fact(fact_type, mbid)` from `knowledge_base_wrapper.py`:
`mbid in self.facts.get(fact_type, {})` — key membership, not value
truthiness. -/
def has_fact (kb : Store) (fact_type mbid : String) : Bool :=
  (alookup ((alookup kb.facts fact_type).getD []) mbid).isSome

/-- `_exact_match_search(track_lower, artist_lower)` from
`knowledge_base_wrapper.py`: first registered song whose trimmed,
lowercased track equals `track_lower` (and artist equals `artist_lower`
when that is not `None`). -/
def exact_match_search (songs : List (String × SongEntry)) (track_lower : String)
    (artist_lower : Option String) : Option String :=
  match songs with
  | [] => none
  | (mbid, song) :: rest =>
      let song_track := pyLowerStr (pyStrip song.track)
      let song_artist := pyLowerStr (pyStrip song.artist)
      if song_track = track_lower then
        match artist_lower with
        | none => some mbid
        | some al =>
            if song_artist = al then some mbid
            else exact_match_search rest track_lower artist_lower
      else exact_match_search rest track_lower artist_lower

/-- `_partial_match_search(track_lower, artist_lower)` from
`knowledge_base_wrapper.py` (named `substring_match_search` here): first
registered song whose track contains or is contained in `track_lower`,
filtered by a bidirectional artist substring match when `artist_lower` is
not `None`. -/
def substring_match_search (songs : List (String × SongEntry)) (track_lower : String)
    (artist_lower : Option String) : Option String :=
  match songs with
  | [] => none
  | (mbid, song) :: rest =>
      let song_track := pyLowerStr (pyStrip song.track)
      if strIn track_lower song_track || strIn song_track track_lower then
        match artist_lower with
        | none => some mbid
        | some al =>
            let song_artist := pyLowerStr (pyStrip song.artist)
            if strIn al song_artist || strIn song_artist al then some mbid
            else substring_match_search rest track_lower artist_lower
      else substring_match_search rest track_lower artist_lower

/-- The outcome of `get_mbid_by_song`: a found MBID, the absent marker
`None`, or one of the two validation exceptions. -/
inductive LookupResult : Type where
  | found : String → LookupResult
  | absent : LookupResult
  | typeError : LookupResult
  | valueError : LookupResult
deriving DecidableEq, Repr

/-- The post-validation body of `get_mbid_by_song`:
`result = exact; if result: return result; return partial` (a falsy result
— `None` or `""` — falls through to the substring phase). -/
def lookupCore (songs : List (String × SongEntry)) (track_lower : String)
    (artist_lower : Option String) : LookupResult :=
  let fallback :=
    match substring_match_search songs track_lower artist_lower with
    | some r => LookupResult.found r
    | none => LookupResult.absent
  match exact_match_search songs track_lower artist_lower with
  | some r => if r = "" then fallback else .found r
  | none => fallback

/-- `get_mbid_by_song(track_name, artist_name)` from
`knowledge_base_wrapper.py`, with dynamically typed arguments (`JVal.null`
is the `None` default for `artist_name`). -/
def get_mbid_by_song (kb : Store) (track_name artist_name : JVal) : LookupResult :=
  match track_name with
  | .str t =>
      if pyStrip t = "" then .valueError
      else
        let core := fun (al : Option String) => lookupCore kb.songs (pyLowerStr (pyStrip t)) al
        match artist_name with
        | .null => core none
        | .str a => core (if a ≠ "" then some (pyLowerStr (pyStrip a)) else none)
        | _ => .typeError
  | _ => .typeError

/-- `find_songs_by_name(track_name, artist_name)` from
`knowledge_base_wrapper.py`: every matching MBID in registration order;
the artist filter applies only when `artist_lower` is truthy. -/
def find_songs_by_name (kb : Store) (track_name : String) (artist_name : Option String) :
    List String :=
  let track_lower := pyLowerStr (pyStrip track_name)
  let artist_lower : Option String :=
    match artist_name with
    | some a => if a ≠ "" then some (pyLowerStr (pyStrip a)) else none
    | none => none
  kb.songs.filterMap (fun p =>
    let song_track := pyLowerStr (pyStrip p.2.track)
    let song_artist := pyLowerStr (pyStrip p.2.artist)
    let track_matches := track_lower = song_track || strIn track_lower song_track ||
      strIn song_track track_lower
    if track_matches then
      match artist_lower with
      | some al =>
          if al ≠ "" then
            if al = song_artist || strIn al song_artist || strIn song_artist al then
              some p.1
            else none
          else some p.1
      | none => some p.1
    else none)

/-! ### Serialization of a built knowledge base into a loaded store

`build_knowledge_base`'s output is written with `json.dump` and read back
by the wrapper; `KB.toStore` is that round trip. -/

/-- A list of strings as a JSON array. -/
def strListJ (l : List String) : JVal :=
  .arr (l.map .str)

/-- The ten fact tables, serialized. -/
def KBFacts.toJ (f : KBFacts) : List (String × List (String × JVal)) :=
  [("has_tempo", mapVal JVal.num f.has_tempo),
   ("has_key", mapVal JVal.str f.has_key),
   ("has_mode", mapVal JVal.str f.has_mode),
   ("has_loudness", mapVal JVal.num f.has_loudness),
   ("has_duration", mapVal JVal.num f.has_duration),
   ("has_genre", mapVal strListJ f.has_genre),
   ("has_danceable", mapVal JVal.str f.has_danceable),
   ("has_voice_instrumental", mapVal JVal.str f.has_voice_instrumental),
   ("has_timbre", mapVal JVal.str f.has_timbre),
   ("has_mood", mapVal strListJ f.has_mood)]

/-- The six indexes, serialized. -/
def KBIndexes.toJ (x : KBIndexes) : List (String × List (String × JVal)) :=
  [("by_tempo_range", mapVal strListJ x.by_tempo_range),
   ("by_genre", mapVal strListJ x.by_genre),
   ("by_danceable", mapVal strListJ x.by_danceable),
   ("by_voice_instrumental", mapVal strListJ x.by_voice_instrumental),
   ("by_timbre", mapVal strListJ x.by_timbre),
   ("by_mood", mapVal strListJ x.by_mood)]

/-- A built knowledge base, as loaded by the query engine. -/
def KB.toStore (kb : KB) : Store :=
  ⟨kb.songs, kb.facts.toJ, kb.indexes.toJ⟩

/-! ### Supporting lemmas -/

theorem alookup_mapVal {α β : Type} (f : α → β) (m : List (String × α)) (k : String) :
    alookup (mapVal f m) k = (alookup m k).map f := by
  induction m with
  | nil => rfl
  | cons p rest ih =>
      simp only [mapVal, List.map_cons, alookup]
      split
      · rfl
      · exact ih

theorem alookup_mem {α : Type} {m : List (String × α)} {k : String} {v : α}
    (h : alookup m k = some v) : (k, v) ∈ m := by
  induction m with
  | nil => simp [alookup] at h
  | cons p rest ih =>
      simp only [alookup] at h
      split at h
      · rename_i hk
        have hv : v = p.2 := by injection h with h2; exact h2.symm
        subst hv; subst hk
        exact List.mem_cons_self _ _
      · exact List.mem_cons_of_mem _ (ih h)

theorem dedupGo_mem {α : Type} [DecidableEq α] {x : α} :
    ∀ {seen l : List α}, x ∈ dedupGo seen l → x ∈ l ∧ x ∉ seen := by
  intro seen l
  induction l generalizing seen with
  | nil => intro h; simp [dedupGo] at h
  | cons y ys ih =>
      intro h
      simp only [dedupGo] at h
      split at h
      · rcases ih h with ⟨h1, h2⟩
        exact ⟨List.mem_cons_of_mem _ h1, h2⟩
      · rcases List.mem_cons.mp h with rfl | h'
        · exact ⟨List.mem_cons_self _ _, by assumption⟩
        · rcases ih h' with ⟨h1, h2⟩
          refine ⟨List.mem_cons_of_mem _ h1, fun hs => h2 (List.mem_cons_of_mem _ hs)⟩

theorem dedupGo_nodup {α : Type} [DecidableEq α] :
    ∀ (seen l : List α), (dedupGo seen l).Nodup := by
  intro seen l
  induction l generalizing seen with
  | nil => simp [dedupGo]
  | cons y ys ih =>
      simp only [dedupGo]
      split
      · exact ih seen
      · refine List.nodup_cons.mpr ⟨fun hmem => ?_, ih (y :: seen)⟩
        exact (dedupGo_mem hmem).2 (List.mem_cons_self _ _)

theorem dedupKeepFirst_nodup {α : Type} [DecidableEq α] (l : List α) :
    (dedupKeepFirst l).Nodup :=
  dedupGo_nodup [] l

theorem isObj_iff {v : JVal} : isObj v = true ↔ ∃ fs, v = .obj fs := by
  cases v <;> simp [isObj]

theorem isNull_iff {v : JVal} : isNull v = true ↔ v = .null := by
  cases v <;> simp [isNull]

theorem convOptFloat_some {x : JVal} {l : Option ℚ} (h : convOptFloat x = some l) :
    l = pyFloat x := by
  unfold convOptFloat at h
  split at h
  · rename_i hn
    obtain rfl := isNull_iff.mp hn
    injection h with h
    simp [pyFloat, ← h]
  · cases hq : pyFloat x with
    | none => rw [hq] at h; simp at h
    | some q => rw [hq] at h; injection h with h; exact h.symm

theorem parse_metadata_total (fs : List (String × JVal)) :
    ∃ out, parse_metadata_from_dump (.obj fs) = some out := by
  simp only [parse_metadata_from_dump, pyDictGetD]
  split <;> exact ⟨_, rfl⟩

theorem apDurLoud_total (fs : List (String × JVal)) :
    ∃ out, apDurLoud (.obj fs) = some out := by
  simp only [apDurLoud, pyDictGetD]
  split <;> exact ⟨_, rfl⟩

theorem confidentField_total (fs : List (String × JVal)) (f : String) :
    ∃ out, confidentField (.obj fs) f = some out := by
  simp only [confidentField, pyDictGetD]
  split
  · split <;> exact ⟨_, rfl⟩
  · exact ⟨_, rfl⟩

theorem moodLoop_total (fs : List (String × JVal)) :
    ∀ pairs, ∃ out, moodLoop (.obj fs) pairs = some out := by
  intro pairs
  induction pairs with
  | nil => exact ⟨[], rfl⟩
  | cons p rest ih =>
      obtain ⟨x, hx⟩ := ih
      simp only [moodLoop, pyDictGetD, hx, Option.map_some]
      exact ⟨_, rfl⟩

theorem parse_highlevel_extra_total (rfs hfs : List (String × JVal)) :
    ∃ out, parse_highlevel_extra (.obj rfs) (.obj hfs) = some out := by
  obtain ⟨⟨dur, loud⟩, h1⟩ := apDurLoud_total rfs
  obtain ⟨d, h2⟩ := confidentField_total hfs "danceability"
  obtain ⟨vi, h3⟩ := confidentField_total hfs "voice_instrumental"
  obtain ⟨tb, h4⟩ := confidentField_total hfs "timbre"
  obtain ⟨ms, h5⟩ := moodLoop_total hfs moodFields
  simp only [parse_highlevel_extra, h1, h2, h3, h4, h5]
  exact ⟨_, rfl⟩

/-- C1: the spec asserts all five normalizer extraction functions are total
on dictionaries with arbitrarily malformed fields.  This is violated:
`parse_lowlevel_json` raises `ValueError` from `float("fast")` on a
non-numeric `rhythm.bpm` string, and `parse_highlevel_json` raises from
`float("very")` on a non-numeric probability (`none` marks the uncaught
exception).  The remaining three functions (`parse_metadata_from_dump`,
`_value_if_confident` — total by construction, its `try/except` catches the
conversion errors — and `parse_highlevel_extra`) do satisfy the claim. -/
theorem C1_normalizer_totality :
    parse_lowlevel_json (.obj [("rhythm", .obj [("bpm", .str "fast")])]) = none ∧
    parse_highlevel_json
      (.obj [("genre_rosamerica",
        .obj [("value", .str "rock"), ("probability", .str "very")])]) = none ∧
    (∀ fs, ∃ out, parse_metadata_from_dump (.obj fs) = some out) ∧
    (∀ rfs hfs, ∃ out, parse_highlevel_extra (.obj rfs) (.obj hfs) = some out) :=
  ⟨by decide, by decide, parse_metadata_total, parse_highlevel_extra_total⟩

/-- C4: `tempo_bucket` maps `None` to `None` and any tempo `t` to the label
`"{base}-{base+10}"` with `base = 10 * (int(t) // 10)`; boundary and
negative examples evaluate as the claim states. -/
theorem C4_tempo_bucket :
    tempo_bucket none = none ∧
    (∀ t : ℚ, tempo_bucket (some t) =
      some (toString (10 * Int.fdiv (ratTrunc t) 10) ++ "-" ++
        toString (10 * Int.fdiv (ratTrunc t) 10 + 10))) ∧
    tempo_bucket (some 125) = some "120-130" ∧
    tempo_bucket (some 130) = some "130-140" ∧
    tempo_bucket (some (mkRat 1259 10)) = some "120-130" ∧
    tempo_bucket (some (-5)) = some "-10-0" ∧
    tempo_bucket (some 0) = some "0-10" := by
  refine ⟨rfl, fun t => ?_, by decide, by decide, by decide, by decide, by decide⟩
  simp only [tempo_bucket, Int.mul_comm]

/-- The C5 counterexample input: a present `lowlevel.average_loudness` of
`0.0` next to a `replay_gain` of `-5.0`. -/
def c5input : JVal :=
  .obj [("lowlevel", .obj [("average_loudness", .num 0)]),
        ("metadata", .obj [("audio_properties", .obj [("replay_gain", .num (-5))])])]

/-- C5 counterexample: the claim says a present `average_loudness` of `0.0`
is returned; in fact `0.0` is falsy, Python's `or` selects the
`replay_gain` fallback `-5.0`. -/
theorem C5_counterexample :
    getNested c5input ["lowlevel", "average_loudness"] = .num 0 ∧
    (parse_lowlevel_json c5input).map AudioFeatures.loudness = some (some (-5)) ∧
    (parse_lowlevel_json c5input).map AudioFeatures.loudness ≠ some (some 0) :=
  ⟨rfl, by decide, by decide⟩

/-- C5 (amended): the loudness output is `float` of the primary
`lowlevel.average_loudness` field whenever that field is **truthy**
(present, non-null and non-zero); when it is absent, null or falsy (e.g.
`0.0`), the output is `float` of the `metadata.audio_properties.replay_gain`
fallback (both `float(None)`-style absences coming out as `None`). -/
theorem C5_loudness_or_fallback (data : JVal) (af : AudioFeatures)
    (h : parse_lowlevel_json data = some af) :
    (truthy (getNested data ["lowlevel", "average_loudness"]) = true →
      af.loudness = pyFloat (getNested data ["lowlevel", "average_loudness"])) ∧
    (truthy (getNested data ["lowlevel", "average_loudness"]) = false →
      af.loudness = pyFloat (getNested data ["metadata", "audio_properties", "replay_gain"])) := by
  simp only [parse_lowlevel_json] at h
  split at h
  · rename_i k m t ts l d hk hm ht hts hl hd
    injection h with h
    subst h
    have hl' := convOptFloat_some hl
    constructor
    · intro htr
      simpa [pyOr, htr] using hl'
    · intro htr
      simpa [pyOr, htr] using hl'
  · exact absurd h (by simp)

/-- Witness for C5's amended theorem at the counterexample input. -/
theorem C5_loudness_or_fallback_witness :
    (parse_lowlevel_json c5input =
      some ⟨none, none, none, none, some (-5), none⟩) ∧
    (⟨none, none, none, none, some (-5), none⟩ : AudioFeatures).loudness =
      pyFloat (getNested c5input ["metadata", "audio_properties", "replay_gain"]) := by
  have h : parse_lowlevel_json c5input = some ⟨none, none, none, none, some (-5), none⟩ := by
    decide
  exact ⟨h, (C5_loudness_or_fallback c5input _ h).2 (by decide)⟩

/-- C2: `has_fact` is true exactly when `get_fact` returns a non-absent
value, because it tests key membership rather than value truthiness — so a
falsy stored fact (0.0, "") still counts as present.  The hypothesis pins
the store to the documented data model (fact values are scalars or lists,
never null): a raw JSON store with an explicit `null` fact value would make
`has_fact` true while `get_fact` returns the absent marker. -/
theorem C2_has_fact_iff_get_fact (kb : Store) (fact_type mbid : String)
    (hwf : ∀ p ∈ (alookup kb.facts fact_type).getD [], isNull p.2 = false) :
    has_fact kb fact_type mbid = true ↔ get_fact kb fact_type mbid ≠ .null := by
  cases hv : alookup ((alookup kb.facts fact_type).getD []) mbid with
  | none => simp [has_fact, get_fact, hv]
  | some v =>
      have hnn := hwf (mbid, v) (alookup_mem hv)
      simp only [has_fact, get_fact, hv, Option.isSome_some, true_iff]
      intro h
      rw [h] at hnn
      simp [isNull] at hnn

/-- Witness for C2: a store holding the legitimately falsy loudness fact
`0.0`; the fact counts as present and `get_fact` returns the non-null
`0.0`. -/
theorem C2_has_fact_iff_get_fact_witness :
    has_fact ⟨[], [("has_loudness", [("s", .num 0)])], []⟩ "has_loudness" "s" = true ∧
    (has_fact ⟨[], [("has_loudness", [("s", .num 0)])], []⟩ "has_loudness" "s" = true ↔
      get_fact ⟨[], [("has_loudness", [("s", .num 0)])], []⟩ "has_loudness" "s" ≠ .null) :=
  ⟨rfl, C2_has_fact_iff_get_fact _ "has_loudness" "s" (by
    intro p hp
    have h : p = ("s", JVal.num 0) := by
      simpa [alookup] using hp
    rw [h]
    rfl)⟩

/-! ### Key- and element-tracking lemmas for the builder -/

theorem mem_akeys_aset {α : Type} {m : List (String × α)} {k : String} {v : α} {x : String}
    (h : x ∈ akeys (aset m k v)) : x = k ∨ x ∈ akeys m := by
  induction m with
  | nil => simpa [aset, akeys] using h
  | cons p rest ih =>
      simp only [aset] at h
      split at h
      · rename_i hk
        simp only [akeys, List.map_cons, List.mem_cons] at h ⊢
        rcases h with h | h
        · exact Or.inr (Or.inl h)
        · exact Or.inr (Or.inr h)
      · simp only [akeys, List.map_cons, List.mem_cons] at h ⊢
        rcases h with h | h
        · exact Or.inr (Or.inl h)
        · rcases ih h with h' | h'
          · exact Or.inl h'
          · exact Or.inr (Or.inr h')

theorem mem_akeys_aset_of_mem {α : Type} {m : List (String × α)} {k : String} {v : α} {x : String}
    (h : x ∈ akeys m) : x ∈ akeys (aset m k v) := by
  induction m with
  | nil => simp [akeys] at h
  | cons p rest ih =>
      simp only [aset]
      split
      · simpa [akeys] using h
      · simp only [akeys, List.map_cons, List.mem_cons] at h ⊢
        rcases h with h | h
        · exact Or.inl h
        · exact Or.inr (ih h)

theorem self_mem_akeys_aset {α : Type} (m : List (String × α)) (k : String) (v : α) :
    k ∈ akeys (aset m k v) := by
  induction m with
  | nil => simp [aset, akeys]
  | cons p rest ih =>
      simp only [aset]
      split
      · rename_i hk
        simp [akeys, hk]
      · simp only [akeys, List.map_cons, List.mem_cons]
        exact Or.inr ih

theorem mem_akeys_apushAt {α : Type} {m : List (String × List α)} {k : String} {v : α}
    {x : String} (h : x ∈ akeys (apushAt m k v)) : x = k ∨ x ∈ akeys m := by
  induction m with
  | nil => simpa [apushAt, akeys] using h
  | cons p rest ih =>
      simp only [apushAt] at h
      split at h
      · rename_i hk
        simp only [akeys, List.map_cons, List.mem_cons] at h ⊢
        rcases h with h | h
        · exact Or.inr (Or.inl h)
        · exact Or.inr (Or.inr h)
      · simp only [akeys, List.map_cons, List.mem_cons] at h ⊢
        rcases h with h | h
        · exact Or.inr (Or.inl h)
        · rcases ih h with h' | h'
          · exact Or.inl h'
          · exact Or.inr (Or.inr h')

theorem mem_aelems_apushAt {α : Type} {m : List (String × List α)} {k : String} {v : α}
    {x : α} (h : x ∈ aelems (apushAt m k v)) : x = v ∨ x ∈ aelems m := by
  induction m with
  | nil => simpa [apushAt, aelems] using h
  | cons p rest ih =>
      simp only [apushAt] at h
      split at h
      · simp only [aelems, List.map_cons, List.flatten_cons, List.mem_append,
          List.mem_cons] at h ⊢
        rcases h with h | h
        · rcases h with h | h | h
          · exact Or.inr (Or.inl h)
          · exact Or.inl h
          · simp at h
        · exact Or.inr (Or.inr h)
      · simp only [aelems, List.map_cons, List.flatten_cons, List.mem_append] at h ⊢
        rcases h with h | h
        · exact Or.inr (Or.inl h)
        · rcases ih h with h' | h'
          · exact Or.inl h'
          · exact Or.inr (Or.inr h')

theorem listFactFold_fst_keys {sid : String} {vs : List String} :
    ∀ (pr : List (String × List String) × List (String × List String)) {x : String},
      x ∈ akeys (listFactFold sid vs pr).1 → x = sid ∨ x ∈ akeys pr.1 := by
  induction vs with
  | nil => intro pr x h; exact Or.inr h
  | cons v vt ih =>
      intro pr x h
      simp only [listFactFold, List.foldl_cons] at h
      rcases ih _ h with h' | h'
      · exact Or.inl h'
      · rcases mem_akeys_apushAt h' with h'' | h''
        · exact Or.inl h''
        · exact Or.inr h''

theorem listFactFold_snd_elems {sid : String} {vs : List String} :
    ∀ (pr : List (String × List String) × List (String × List String)) {x : String},
      x ∈ aelems (listFactFold sid vs pr).2 → x = sid ∨ x ∈ aelems pr.2 := by
  induction vs with
  | nil => intro pr x h; exact Or.inr h
  | cons v vt ih =>
      intro pr x h
      simp only [listFactFold, List.foldl_cons] at h
      rcases ih _ h with h' | h'
      · exact Or.inl h'
      · by_cases hn : pyStrip (pyLowerStr v) ≠ ""
        · simp only [if_pos hn] at h'
          rcases mem_aelems_apushAt h' with h'' | h''
          · exact Or.inl h''
          · exact Or.inr h''
        · simp only [if_neg hn] at h'
          exact Or.inr h'

theorem akeys_mapVal {α β : Type} (f : α → β) (m : List (String × α)) :
    akeys (mapVal f m) = akeys m := by
  induction m <;> simp_all [akeys, mapVal]

/-- All song ids used as keys in any of the ten fact tables. -/
def factIds (f : KBFacts) : List String :=
  akeys f.has_tempo ++ akeys f.has_key ++ akeys f.has_mode ++ akeys f.has_loudness ++
  akeys f.has_duration ++ akeys f.has_genre ++ akeys f.has_danceable ++
  akeys f.has_voice_instrumental ++ akeys f.has_timbre ++ akeys f.has_mood

/-- All song ids appearing inside any value-list of the six indexes. -/
def indexIds (x : KBIndexes) : List String :=
  aelems x.by_tempo_range ++ aelems x.by_genre ++ aelems x.by_danceable ++
  aelems x.by_voice_instrumental ++ aelems x.by_timbre ++ aelems x.by_mood

/-- The fact-store invariant of the spec: every id in facts or indexes is a
registered song. -/
def KBInv (st : KB) : Prop :=
  ∀ x, x ∈ factIds st.facts ∨ x ∈ indexIds st.indexes → x ∈ akeys st.songs

theorem mem_factIds_iff {f : KBFacts} {x : String} :
    x ∈ factIds f ↔
      x ∈ akeys f.has_tempo ∨ x ∈ akeys f.has_key ∨ x ∈ akeys f.has_mode ∨
      x ∈ akeys f.has_loudness ∨ x ∈ akeys f.has_duration ∨ x ∈ akeys f.has_genre ∨
      x ∈ akeys f.has_danceable ∨ x ∈ akeys f.has_voice_instrumental ∨
      x ∈ akeys f.has_timbre ∨ x ∈ akeys f.has_mood := by
  simp [factIds, List.mem_append, or_assoc]

theorem mem_indexIds_iff {ix : KBIndexes} {x : String} :
    x ∈ indexIds ix ↔
      x ∈ aelems ix.by_tempo_range ∨ x ∈ aelems ix.by_genre ∨ x ∈ aelems ix.by_danceable ∨
      x ∈ aelems ix.by_voice_instrumental ∨ x ∈ aelems ix.by_timbre ∨
      x ∈ aelems ix.by_mood := by
  simp [indexIds, List.mem_append, or_assoc]

theorem buildStep_inv (st : KB) (song : SongRecord) (h : KBInv st) :
    KBInv (buildStep st song) := by
  unfold buildStep
  cases hm : song.mbid with
  | none => exact h
  | some sid =>
      by_cases hs : sid = ""
      · simp only [if_pos hs]; exact h
      · simp only [if_neg hs]
        intro x hx
        dsimp only at hx ⊢
        have key_or : x = sid ∨ (x ∈ factIds st.facts ∨ x ∈ indexIds st.indexes) := by
          rcases hx with hf | hi
          · rw [mem_factIds_iff] at hf
            dsimp only at hf
            rcases hf with hh | hh | hh | hh | hh | hh | hh | hh | hh | hh
            · split at hh
              · rcases mem_akeys_aset hh with h' | h'
                · exact Or.inl h'
                · exact Or.inr (Or.inl (mem_factIds_iff.mpr (by tauto)))
              · exact Or.inr (Or.inl (mem_factIds_iff.mpr (by tauto)))
            · split at hh
              · split at hh
                · rcases mem_akeys_aset hh with h' | h'
                  · exact Or.inl h'
                  · exact Or.inr (Or.inl (mem_factIds_iff.mpr (by tauto)))
                · exact Or.inr (Or.inl (mem_factIds_iff.mpr (by tauto)))
              · exact Or.inr (Or.inl (mem_factIds_iff.mpr (by tauto)))
            · split at hh
              · split at hh
                · rcases mem_akeys_aset hh with h' | h'
                  · exact Or.inl h'
                  · exact Or.inr (Or.inl (mem_factIds_iff.mpr (by tauto)))
                · exact Or.inr (Or.inl (mem_factIds_iff.mpr (by tauto)))
              · exact Or.inr (Or.inl (mem_factIds_iff.mpr (by tauto)))
            · split at hh
              · rcases mem_akeys_aset hh with h' | h'
                · exact Or.inl h'
                · exact Or.inr (Or.inl (mem_factIds_iff.mpr (by tauto)))
              · exact Or.inr (Or.inl (mem_factIds_iff.mpr (by tauto)))
            · split at hh
              · rcases mem_akeys_aset hh with h' | h'
                · exact Or.inl h'
                · exact Or.inr (Or.inl (mem_factIds_iff.mpr (by tauto)))
              · exact Or.inr (Or.inl (mem_factIds_iff.mpr (by tauto)))
            · rcases listFactFold_fst_keys _ hh with h' | h'
              · exact Or.inl h'
              · exact Or.inr (Or.inl (mem_factIds_iff.mpr (by tauto)))
            · split at hh
              · split at hh
                · rcases mem_akeys_aset hh with h' | h'
                  · exact Or.inl h'
                  · exact Or.inr (Or.inl (mem_factIds_iff.mpr (by tauto)))
                · exact Or.inr (Or.inl (mem_factIds_iff.mpr (by tauto)))
              · exact Or.inr (Or.inl (mem_factIds_iff.mpr (by tauto)))
            · split at hh
              · split at hh
                · rcases mem_akeys_aset hh with h' | h'
                  · exact Or.inl h'
                  · exact Or.inr (Or.inl (mem_factIds_iff.mpr (by tauto)))
                · exact Or.inr (Or.inl (mem_factIds_iff.mpr (by tauto)))
              · exact Or.inr (Or.inl (mem_factIds_iff.mpr (by tauto)))
            · split at hh
              · split at hh
                · rcases mem_akeys_aset hh with h' | h'
                  · exact Or.inl h'
                  · exact Or.inr (Or.inl (mem_factIds_iff.mpr (by tauto)))
                · exact Or.inr (Or.inl (mem_factIds_iff.mpr (by tauto)))
              · exact Or.inr (Or.inl (mem_factIds_iff.mpr (by tauto)))
            · rcases listFactFold_fst_keys _ hh with h' | h'
              · exact Or.inl h'
              · exact Or.inr (Or.inl (mem_factIds_iff.mpr (by tauto)))
          · rw [mem_indexIds_iff] at hi
            dsimp only at hi
            rcases hi with hh | hh | hh | hh | hh | hh
            · split at hh
              · split at hh
                · split at hh
                  · rcases mem_aelems_apushAt hh with h' | h'
                    · exact Or.inl h'
                    · exact Or.inr (Or.inr (mem_indexIds_iff.mpr (by tauto)))
                  · exact Or.inr (Or.inr (mem_indexIds_iff.mpr (by tauto)))
                · exact Or.inr (Or.inr (mem_indexIds_iff.mpr (by tauto)))
              · exact Or.inr (Or.inr (mem_indexIds_iff.mpr (by tauto)))
            · rcases listFactFold_snd_elems _ hh with h' | h'
              · exact Or.inl h'
              · exact Or.inr (Or.inr (mem_indexIds_iff.mpr (by tauto)))
            · split at hh
              · split at hh
                · rcases mem_aelems_apushAt hh with h' | h'
                  · exact Or.inl h'
                  · exact Or.inr (Or.inr (mem_indexIds_iff.mpr (by tauto)))
                · exact Or.inr (Or.inr (mem_indexIds_iff.mpr (by tauto)))
              · exact Or.inr (Or.inr (mem_indexIds_iff.mpr (by tauto)))
            · split at hh
              · split at hh
                · rcases mem_aelems_apushAt hh with h' | h'
                  · exact Or.inl h'
                  · exact Or.inr (Or.inr (mem_indexIds_iff.mpr (by tauto)))
                · exact Or.inr (Or.inr (mem_indexIds_iff.mpr (by tauto)))
              · exact Or.inr (Or.inr (mem_indexIds_iff.mpr (by tauto)))
            · split at hh
              · split at hh
                · rcases mem_aelems_apushAt hh with h' | h'
                  · exact Or.inl h'
                  · exact Or.inr (Or.inr (mem_indexIds_iff.mpr (by tauto)))
                · exact Or.inr (Or.inr (mem_indexIds_iff.mpr (by tauto)))
              · exact Or.inr (Or.inr (mem_indexIds_iff.mpr (by tauto)))
            · rcases listFactFold_snd_elems _ hh with h' | h'
              · exact Or.inl h'
              · exact Or.inr (Or.inr (mem_indexIds_iff.mpr (by tauto)))
        rcases key_or with rfl | hold
        · exact self_mem_akeys_aset _ _ _
        · exact mem_akeys_aset_of_mem (h x hold)

theorem foldl_buildStep_inv (records : List SongRecord) :
    ∀ st, KBInv st → KBInv (records.foldl buildStep st) := by
  induction records with
  | nil => exact fun st h => h
  | cons r rs ih => exact fun st h => ih _ (buildStep_inv st r h)

theorem KBInv_empty : KBInv KB.empty := by
  intro x hx
  rcases hx with h | h
  · simp [KB.empty, factIds, akeys] at h
  · simp [KB.empty, indexIds, aelems] at h

/-- C7: every song id appearing as a key of any fact table, or as an element
of any index value-list, of the store returned by `build_knowledge_base` is
also a key of the song registry. -/
theorem C7_every_id_registered (records : List SongRecord) (sid : String)
    (h : sid ∈ factIds (build_knowledge_base records).facts ∨
      sid ∈ indexIds (build_knowledge_base records).indexes) :
    sid ∈ akeys (build_knowledge_base records).songs := by
  have hinv := foldl_buildStep_inv records KB.empty KBInv_empty
  apply hinv
  unfold build_knowledge_base at h
  dsimp only at h
  rcases h with h | h
  · left
    rw [mem_factIds_iff] at h
    dsimp only at h
    rw [mem_factIds_iff]
    simpa [akeys_mapVal] using h
  · right
    exact h

/-- Witness input for C7 and C6: one record with a duplicated genre. -/
def c67rec : SongRecord :=
  ⟨some "s1", "", "", "", AudioFeatures.empty, ["rock", "rock", "alt"],
   none, none, none, ["happy", "happy"]⟩

/-- Witness for C7 at a concrete build. -/
theorem C7_every_id_registered_witness :
    "s1" ∈ akeys (build_knowledge_base [c67rec]).songs :=
  C7_every_id_registered [c67rec] "s1" (by left; decide)

theorem alookup_toJ_has_genre (f : KBFacts) :
    alookup (KBFacts.toJ f) "has_genre" = some (mapVal strListJ f.has_genre) := by
  rfl

theorem alookup_toJ_has_mood (f : KBFacts) :
    alookup (KBFacts.toJ f) "has_mood" = some (mapVal strListJ f.has_mood) := by
  rfl

theorem JVal_str_injective : Function.Injective JVal.str := by
  intro a b h
  injection h

theorem get_fact_toStore_genre (kb : KB) (sid : String) :
    get_fact kb.toStore "has_genre" sid =
      match alookup kb.facts.has_genre sid with
      | some l => strListJ l
      | none => .null := by
  unfold get_fact KB.toStore
  dsimp only
  rw [alookup_toJ_has_genre]
  simp only [Option.getD_some]
  rw [alookup_mapVal]
  cases alookup kb.facts.has_genre sid <;> rfl

theorem get_fact_toStore_mood (kb : KB) (sid : String) :
    get_fact kb.toStore "has_mood" sid =
      match alookup kb.facts.has_mood sid with
      | some l => strListJ l
      | none => .null := by
  unfold get_fact KB.toStore
  dsimp only
  rw [alookup_toJ_has_mood]
  simp only [Option.getD_some]
  rw [alookup_mapVal]
  cases alookup kb.facts.has_mood sid <;> rfl

/-- C6: in the store built by `build_knowledge_base`, every `has_genre` and
`has_mood` fact is either absent or a duplicate-free list (deduplicated in
place, preserving first-seen order), while index value-lists are **not**
re-deduplicated: the concrete build from one record with genre list
`["rock", "rock", "alt"]` keeps the song twice under the `"rock"` index key
even though its genre fact-list is deduplicated to `["rock", "alt"]`. -/
theorem C6_fact_lists_deduplicated :
    (∀ (records : List SongRecord) (sid : String),
      get_fact (build_knowledge_base records).toStore "has_genre" sid = .null ∨
      ∃ l, get_fact (build_knowledge_base records).toStore "has_genre" sid = .arr l ∧
        l.Nodup) ∧
    (∀ (records : List SongRecord) (sid : String),
      get_fact (build_knowledge_base records).toStore "has_mood" sid = .null ∨
      ∃ l, get_fact (build_knowledge_base records).toStore "has_mood" sid = .arr l ∧
        l.Nodup) ∧
    alookup (build_knowledge_base [c67rec]).indexes.by_genre "rock" = some ["s1", "s1"] ∧
    alookup (build_knowledge_base [c67rec]).facts.has_genre "s1" = some ["rock", "alt"] ∧
    alookup (build_knowledge_base [c67rec]).indexes.by_mood "happy" = some ["s1", "s1"] ∧
    alookup (build_knowledge_base [c67rec]).facts.has_mood "s1" = some ["happy"] := by
  refine ⟨fun records sid => ?_, fun records sid => ?_, by decide, by decide, by decide,
    by decide⟩
  · rw [get_fact_toStore_genre]
    have hhg : (build_knowledge_base records).facts.has_genre =
        mapVal dedupKeepFirst (records.foldl buildStep KB.empty).facts.has_genre := rfl
    rw [hhg, alookup_mapVal]
    cases alookup (records.foldl buildStep KB.empty).facts.has_genre sid with
    | none => exact Or.inl rfl
    | some l =>
        refine Or.inr ⟨(dedupKeepFirst l).map JVal.str, rfl, ?_⟩
        exact (dedupKeepFirst_nodup l).map JVal_str_injective
  · rw [get_fact_toStore_mood]
    have hhm : (build_knowledge_base records).facts.has_mood =
        mapVal dedupKeepFirst (records.foldl buildStep KB.empty).facts.has_mood := rfl
    rw [hhm, alookup_mapVal]
    cases alookup (records.foldl buildStep KB.empty).facts.has_mood sid with
    | none => exact Or.inl rfl
    | some l =>
        refine Or.inr ⟨(dedupKeepFirst l).map JVal.str, rfl, ?_⟩
        exact (dedupKeepFirst_nodup l).map JVal_str_injective

/-! ### C3: genre extraction over well-formed classifier objects -/

/-- A genre classifier object `{value, probability}` as the spec describes
it. -/
structure GenreClassifier : Type where
  value : String
  probability : ℚ
deriving DecidableEq, Repr

/-- A present classifier as JSON, an absent one as null (what
`data.get(field)` returns for a missing field). -/
def classifierJ : Option GenreClassifier → JVal
  | none => .null
  | some c => .obj [("value", .str c.value), ("probability", .num c.probability)]

/-- A high-level JSON document carrying the four genre classifier fields. -/
def highlevelJson (c1 c2 c3 c4 : Option GenreClassifier) : JVal :=
  .obj [("genre_rosamerica", classifierJ c1), ("genre_electronic", classifierJ c2),
        ("genre_dortmund", classifierJ c3), ("genre_tzanetakis", classifierJ c4)]

/-- The claim's acceptance rule, stated from the spec's words: a classifier
contributes its lowercased value exactly when `probability > 0.3` (strict)
and the value is non-empty. -/
def genreContribution : Option GenreClassifier → List String
  | none => []
  | some c => if c.probability > 3/10 ∧ c.value ≠ "" then [pyLowerStr c.value] else []

theorem mkRat_three_tenths : mkRat 3 10 = 3/10 := by
  rw [Rat.mkRat_eq_div]
  norm_num

theorem genreLoop_classifier_step (data : JVal) (f : String) (rest : List String)
    (acc : List String) (c : Option GenreClassifier)
    (hf : pyDictGetD data f .null = some (classifierJ c)) :
    genreLoop data (f :: rest) acc = genreLoop data rest (acc ++ genreContribution c) := by
  cases c with
  | none => simp [genreLoop, hf, classifierJ, genreContribution]
  | some c =>
      simp only [genreLoop, hf, classifierJ, genreContribution]
      have hv : objGetD [("value", JVal.str c.value), ("probability", JVal.num c.probability)]
          "value" .null = .str c.value := rfl
      have hp : objGetD [("value", JVal.str c.value), ("probability", JVal.num c.probability)]
          "probability" (.num 0) = .num c.probability := rfl
      rw [hv, hp]
      simp only [truthy, pyFloat, pyStr]
      by_cases hval : c.value = ""
      · simp [hval]
      · by_cases hprob : c.probability > 3/10
        · have hne : c.probability ≠ 0 := ne_of_gt (lt_trans (by norm_num) hprob)
          have hgt : c.probability > mkRat 3 10 := by rw [mkRat_three_tenths]; exact hprob
          simp [hval, hne, hgt, hprob]
        · have hngt : ¬c.probability > mkRat 3 10 := by rw [mkRat_three_tenths]; exact hprob
          by_cases hz : c.probability = 0
          · simp [hval, hz, hngt, hprob]
            norm_num
          · simp [hval, hz, hngt, hprob]

theorem parse_highlevel_json_classifiers (c1 c2 c3 c4 : Option GenreClassifier) :
    parse_highlevel_json (highlevelJson c1 c2 c3 c4) =
      some (dedupKeepFirst (genreContribution c1 ++ genreContribution c2 ++
        genreContribution c3 ++ genreContribution c4)) := by
  have h1 : pyDictGetD (highlevelJson c1 c2 c3 c4) "genre_rosamerica" .null =
      some (classifierJ c1) := rfl
  have h2 : pyDictGetD (highlevelJson c1 c2 c3 c4) "genre_electronic" .null =
      some (classifierJ c2) := rfl
  have h3 : pyDictGetD (highlevelJson c1 c2 c3 c4) "genre_dortmund" .null =
      some (classifierJ c3) := rfl
  have h4 : pyDictGetD (highlevelJson c1 c2 c3 c4) "genre_tzanetakis" .null =
      some (classifierJ c4) := rfl
  unfold parse_highlevel_json genreFields
  rw [genreLoop_classifier_step _ _ _ _ _ h1, genreLoop_classifier_step _ _ _ _ _ h2,
    genreLoop_classifier_step _ _ _ _ _ h3, genreLoop_classifier_step _ _ _ _ _ h4]
  simp [genreLoop, List.append_assoc]

/-- C3: on the four genre classifier fields, `parse_highlevel_json` returns
exactly the lowercased values of the classifiers whose probability is
strictly greater than 0.3 and whose value is non-empty, in field order,
deduplicated preserving first-seen order; at the boundary,
`{value:"rock", probability:0.3}` contributes nothing while probability
0.31 contributes `"rock"`. -/
theorem C3_genre_extraction :
    (∀ c1 c2 c3 c4 : Option GenreClassifier,
      parse_highlevel_json (highlevelJson c1 c2 c3 c4) =
        some (dedupKeepFirst (genreContribution c1 ++ genreContribution c2 ++
          genreContribution c3 ++ genreContribution c4))) ∧
    parse_highlevel_json (highlevelJson (some ⟨"rock", mkRat 3 10⟩) none none none) =
      some [] ∧
    parse_highlevel_json (highlevelJson (some ⟨"rock", mkRat 31 100⟩) none none none) =
      some ["rock"] :=
  ⟨parse_highlevel_json_classifiers, by decide, by decide⟩

/-! ### C8-C10: fuzzy name resolution -/

/-- The exact-phase matching predicate, from the spec's words: case-folded,
trimmed exact equality on track, and on artist when supplied. -/
def exactPred (tl : String) (al : Option String) (s : SongEntry) : Bool :=
  decide (pyLowerStr (pyStrip s.track) = tl) &&
    (match al with
     | none => true
     | some a => decide (pyLowerStr (pyStrip s.artist) = a))

/-- The substring-phase matching predicate, from the spec's words:
case-folded, trimmed substring match in either direction on track, and on
artist when supplied. -/
def substrPred (tl : String) (al : Option String) (s : SongEntry) : Bool :=
  (strIn tl (pyLowerStr (pyStrip s.track)) || strIn (pyLowerStr (pyStrip s.track)) tl) &&
    (match al with
     | none => true
     | some a =>
         strIn a (pyLowerStr (pyStrip s.artist)) || strIn (pyLowerStr (pyStrip s.artist)) a)

theorem exact_match_search_eq_find (songs : List (String × SongEntry)) (tl : String)
    (al : Option String) :
    exact_match_search songs tl al =
      (List.find? (fun p => exactPred tl al p.2) songs).map Prod.fst := by
  induction songs with
  | nil => rfl
  | cons p rest ih =>
      obtain ⟨mbid, song⟩ := p
      simp only [exact_match_search]
      by_cases ht : pyLowerStr (pyStrip song.track) = tl
      · rw [if_pos ht]
        cases al with
        | none =>
            rw [List.find?_cons_of_pos _ (by simp [exactPred, ht])]
            rfl
        | some a =>
            dsimp only
            by_cases ha : pyLowerStr (pyStrip song.artist) = a
            · rw [if_pos ha, List.find?_cons_of_pos _ (by simp [exactPred, ht, ha])]
              rfl
            · rw [if_neg ha, List.find?_cons_of_neg _ (by simp [exactPred, ha])]
              exact ih
      · rw [if_neg ht, List.find?_cons_of_neg _ (by simp [exactPred, ht])]
        exact ih

theorem substring_match_search_eq_find (songs : List (String × SongEntry)) (tl : String)
    (al : Option String) :
    substring_match_search songs tl al =
      (List.find? (fun p => substrPred tl al p.2) songs).map Prod.fst := by
  induction songs with
  | nil => rfl
  | cons p rest ih =>
      obtain ⟨mbid, song⟩ := p
      simp only [substring_match_search]
      by_cases ht :
          (strIn tl (pyLowerStr (pyStrip song.track)) ||
            strIn (pyLowerStr (pyStrip song.track)) tl) = true
      · rw [if_pos ht]
        cases al with
        | none =>
            rw [List.find?_cons_of_pos _ (by simp [substrPred]; exact Or.imp id id (by simpa using ht))]
            rfl
        | some a =>
            dsimp only
            by_cases ha :
                (strIn a (pyLowerStr (pyStrip song.artist)) ||
                  strIn (pyLowerStr (pyStrip song.artist)) a) = true
            · rw [if_pos ha, List.find?_cons_of_pos _ (by simp [substrPred, Bool.and_eq_true, ht, ha])]
              rfl
            · rw [if_neg ha, List.find?_cons_of_neg _ (by simp [substrPred, Bool.and_eq_true, ha])]
              exact ih
      · rw [if_neg ht, List.find?_cons_of_neg _ (by simp [substrPred, Bool.and_eq_true, ht])]
        exact ih

/-- The two-phase resolution procedure, written from the spec's words:
scan for the first exact match in registration order; only if that phase
found nothing, scan for the first bidirectional-substring match; absent
when no song matches. -/
def resolveSpec (kb : Store) (t : String) (a : Option String) : LookupResult :=
  let tl := pyLowerStr (pyStrip t)
  let al := a.map (fun s => pyLowerStr (pyStrip s))
  match (List.find? (fun p => exactPred tl al p.2) kb.songs).map Prod.fst with
  | some r => .found r
  | none =>
      match (List.find? (fun p => substrPred tl al p.2) kb.songs).map Prod.fst with
      | some r => .found r
      | none => .absent

theorem lookupCore_eq_spec (songs : List (String × SongEntry)) (tl : String)
    (al : Option String) (hids : ∀ p ∈ songs, p.1 ≠ "") :
    lookupCore songs tl al =
      match (List.find? (fun p => exactPred tl al p.2) songs).map Prod.fst with
      | some r => LookupResult.found r
      | none =>
          match (List.find? (fun p => substrPred tl al p.2) songs).map Prod.fst with
          | some r => LookupResult.found r
          | none => LookupResult.absent := by
  unfold lookupCore
  rw [exact_match_search_eq_find, substring_match_search_eq_find]
  cases hf : List.find? (fun p => exactPred tl al p.2) songs with
  | none => rfl
  | some pr =>
      have hne : pr.1 ≠ "" := hids pr (List.mem_of_find?_eq_some hf)
      simp [hne]

/-- C8: for a valid track argument, `get_mbid_by_song` equals the spec's
two-phase procedure `resolveSpec`: first exact match in registration order,
then — only if the exact phase found nothing — first bidirectional
substring match, else absent.  Hypotheses pin the claim's scope: song ids
are non-empty strings (the data model's UUID ids; an empty-string id would
be treated as "no match" by the code's truthiness test `if result:`), and a
supplied artist is not the literal empty string (which the code treats as
omitted; C10 covers whitespace-only artists). -/
theorem C8_two_phase_resolution (kb : Store) (t : String) (a : Option String)
    (ht : pyStrip t ≠ "") (ha : a ≠ some "")
    (hids : ∀ p ∈ kb.songs, p.1 ≠ "") :
    get_mbid_by_song kb (.str t)
        (match a with | none => JVal.null | some s => JVal.str s) =
      resolveSpec kb t a := by
  cases a with
  | none =>
      unfold get_mbid_by_song resolveSpec
      dsimp only
      rw [if_neg ht, lookupCore_eq_spec kb.songs _ none hids]
      rfl
  | some s =>
      have hs : s ≠ "" := fun h => ha (by rw [h])
      unfold get_mbid_by_song resolveSpec
      dsimp only
      rw [if_neg ht, if_pos hs,
        lookupCore_eq_spec kb.songs _ (some (pyLowerStr (pyStrip s))) hids]
      rfl

/-- Witness store for C8 and C10. -/
def wkb : Store :=
  ⟨[("id1", ⟨"id1", "Queen", "Rock Song", ""⟩),
    ("id2", ⟨"id2", "Test Artist", "Test Song", ""⟩)], [], []⟩

/-- Witness for C8 at a concrete store and query. -/
theorem C8_two_phase_resolution_witness :
    get_mbid_by_song wkb (.str "TEST SONG") .null = resolveSpec wkb "TEST SONG" none :=
  C8_two_phase_resolution wkb "TEST SONG" none (by decide) (by simp)
    (by intro p hp; simp [wkb] at hp; rcases hp with h | h <;> simp [h])

/-- C9: `get_mbid_by_song` validates its arguments before any lookup: a
non-string track raises `TypeError`, an empty-after-trim track raises
`ValueError`, a supplied non-string artist raises `TypeError`, and no
invalid input ever returns the absent marker. -/
theorem C9_input_validation (kb : Store) (jt ja : JVal) :
    ((∀ s, jt ≠ .str s) → get_mbid_by_song kb jt ja = .typeError) ∧
    (∀ s, jt = .str s → pyStrip s = "" → get_mbid_by_song kb jt ja = .valueError) ∧
    (∀ s, jt = .str s → pyStrip s ≠ "" → ja ≠ .null → (∀ x, ja ≠ .str x) →
      get_mbid_by_song kb jt ja = .typeError) ∧
    (((∀ s, jt ≠ .str s) ∨ (∃ s, jt = .str s ∧ pyStrip s = "") ∨
        (ja ≠ .null ∧ ∀ x, ja ≠ .str x)) →
      get_mbid_by_song kb jt ja ≠ .absent) := by
  refine ⟨?_, ?_, ?_, ?_⟩
  · intro h
    cases jt with
    | str s => exact absurd rfl (h s)
    | null => rfl
    | bool b => rfl
    | num q => rfl
    | arr l => rfl
    | obj fs => rfl
  · intro s hjt hss
    subst hjt
    unfold get_mbid_by_song
    dsimp only
    rw [if_pos hss]
  · intro s hjt hss hnn hns
    subst hjt
    unfold get_mbid_by_song
    dsimp only
    rw [if_neg hss]
    cases ja with
    | null => exact absurd rfl hnn
    | str x => exact absurd rfl (hns x)
    | bool b => rfl
    | num q => rfl
    | arr l => rfl
    | obj fs => rfl
  · intro h
    rcases h with h | ⟨s, hjt, hss⟩ | ⟨hnn, hns⟩
    · cases jt with
      | str s => exact absurd rfl (h s)
      | null => simp [get_mbid_by_song]
      | bool b => simp [get_mbid_by_song]
      | num q => simp [get_mbid_by_song]
      | arr l => simp [get_mbid_by_song]
      | obj fs => simp [get_mbid_by_song]
    · subst hjt
      unfold get_mbid_by_song
      dsimp only
      rw [if_pos hss]
      simp
    · cases jt with
      | str s =>
          unfold get_mbid_by_song
          dsimp only
          by_cases hss : pyStrip s = ""
          · rw [if_pos hss]; simp
          · rw [if_neg hss]
            cases ja with
            | null => exact absurd rfl hnn
            | str x => exact absurd rfl (hns x)
            | bool b => simp
            | num q => simp
            | arr l => simp
            | obj fs => simp
      | null => simp [get_mbid_by_song]
      | bool b => simp [get_mbid_by_song]
      | num q => simp [get_mbid_by_song]
      | arr l => simp [get_mbid_by_song]
      | obj fs => simp [get_mbid_by_song]

/-- Witness for C9: a numeric track argument is rejected with `TypeError`
(and in particular is not the absent marker). -/
theorem C9_input_validation_witness :
    get_mbid_by_song wkb (.num 3) .null = .typeError ∧
    get_mbid_by_song wkb (.num 3) .null ≠ .absent := by
  have h := C9_input_validation wkb (.num 3) .null
  refine ⟨h.1 ?_, h.2.2.2 (Or.inl ?_)⟩ <;> intro s <;> intro hcon <;> cases hcon

theorem strIn_left_empty (s : String) : strIn "" s = true := by
  unfold strIn subListOf
  have h : ∀ l : List Char, (l.tails.any fun t => ([] : List Char).isPrefixOf t) = true := by
    intro l
    cases l with
    | nil => rfl
    | cons c cs => simp [List.tails]
  exact h s.toList

/-- C10 counterexample: with a whitespace-only artist argument, a song whose
registered artist is "Queen" (non-empty after trimming) is still matched by
`get_mbid_by_song`, via the substring phase — the empty artist filter is a
substring of every artist.  The claim asserted such a song could match only
if its registered artist were empty after trimming. -/
theorem C10_counterexample :
    get_mbid_by_song ⟨[("id1", ⟨"id1", "Queen", "Rock Song", ""⟩)], [], []⟩
        (.str "Rock") (.str "   ") = .found "id1" ∧
    pyStrip "Queen" ≠ "" :=
  ⟨by decide, by decide⟩

/-- C10 (amended): a whitespace-only artist argument is indeed not treated
as omitted by `get_mbid_by_song` — it is trimmed and lowercased to the empty
string and passed as a filter; in the **exact** phase only songs whose
registered artist is empty after trimming can match, but in the substring
phase the empty artist string imposes **no** constraint (it is a substring
of every artist), so songs with any artist can match there; and
`find_songs_by_name`, given the same whitespace-only artist, treats the
artist as not supplied and applies no artist filter. -/
theorem C10_whitespace_artist :
    (∀ (kb : Store) (t w : String), w ≠ "" → pyStrip w = "" →
      get_mbid_by_song kb (.str t) (.str w) =
        if pyStrip t = "" then .valueError
        else lookupCore kb.songs (pyLowerStr (pyStrip t)) (some "")) ∧
    (∀ (songs : List (String × SongEntry)) (tl r : String),
      exact_match_search songs tl (some "") = some r →
      ∃ p ∈ songs, p.1 = r ∧ pyLowerStr (pyStrip p.2.artist) = "") ∧
    (∀ (songs : List (String × SongEntry)) (tl : String),
      substring_match_search songs tl (some "") = substring_match_search songs tl none) ∧
    (∀ (kb : Store) (t w : String), w ≠ "" → pyStrip w = "" →
      find_songs_by_name kb t (some w) = find_songs_by_name kb t none) := by
  have hplw : ∀ w : String, pyStrip w = "" → pyLowerStr (pyStrip w) = "" := by
    intro w hw
    rw [hw]
    rfl
  refine ⟨?_, ?_, ?_, ?_⟩
  · intro kb t w hw hsw
    unfold get_mbid_by_song
    dsimp only
    by_cases ht : pyStrip t = ""
    · rw [if_pos ht, if_pos ht]
    · rw [if_neg ht, if_neg ht, if_pos hw, hplw w hsw]
  · intro songs tl r h
    rw [exact_match_search_eq_find] at h
    cases hf : List.find? (fun p => exactPred tl (some "") p.2) songs with
    | none => rw [hf] at h; simp at h
    | some pr =>
        rw [hf] at h
        injection h with h
        have hpred := List.find?_some hf
        simp only [exactPred, Bool.and_eq_true, decide_eq_true_eq] at hpred
        exact ⟨pr, List.mem_of_find?_eq_some hf, h, hpred.2⟩
  · intro songs tl
    rw [substring_match_search_eq_find, substring_match_search_eq_find]
    have hpred : (fun (p : String × SongEntry) => substrPred tl (some "") p.2) =
        (fun p => substrPred tl none p.2) := by
      funext p
      simp [substrPred, strIn_left_empty]
    rw [hpred]
  · intro kb t w hw hsw
    unfold find_songs_by_name
    dsimp only
    rw [if_pos hw, hplw w hsw]
    congr 1

/-- Witness for C10's amended theorem at the `wkb` store with the
whitespace-only artist `"   "`. -/
theorem C10_whitespace_artist_witness :
    get_mbid_by_song wkb (.str "Rock") (.str "   ") =
      (if pyStrip "Rock" = "" then LookupResult.valueError
       else lookupCore wkb.songs (pyLowerStr (pyStrip "Rock")) (some "")) ∧
    find_songs_by_name wkb "Rock" (some "   ") = find_songs_by_name wkb "Rock" none :=
  ⟨C10_whitespace_artist.1 wkb "Rock" "   " (by decide) (by decide),
   C10_whitespace_artist.2.2.2 wkb "Rock" "   " (by decide) (by decide)⟩

/-- C2 counterexample: a loadable store holding an explicit JSON `null`
fact value.  `has_fact` is true (key membership) while `get_fact` returns
the absent marker `None`, so the claimed equivalence fails for that store;
it holds for every store whose fact values conform to the data model
(scalars or lists, never null), as `C2_has_fact_iff_get_fact` proves. -/
theorem C2_counterexample :
    has_fact ⟨[], [("f", [("s", .null)])], []⟩ "f" "s" = true ∧
    get_fact ⟨[], [("f", [("s", .null)])], []⟩ "f" "s" = .null :=
  ⟨rfl, rfl⟩

/-- The C8 counterexample store: the first registered song matches the query
track only as a substring, the second exactly. -/
def c8kb : Store :=
  ⟨[("s1", ⟨"s1", "q", "rocket", ""⟩), ("s2", ⟨"s2", "q", "rock", ""⟩)], [], []⟩

/-- C8 counterexample: with the artist argument supplied as the literal
empty string, the code's truthiness test treats it as omitted, so the exact
phase matches on track alone and returns "s2"; the claim's two-phase
procedure, taking the empty artist as supplied, finds no exact match (no
registered artist equals "") and falls through to the substring phase,
returning "s1". -/
theorem C8_counterexample :
    get_mbid_by_song c8kb (.str "rock") (.str "") = .found "s2" ∧
    resolveSpec c8kb "rock" (some "") = .found "s1" ∧
    LookupResult.found "s2" ≠ LookupResult.found "s1" :=
  ⟨by decide, by decide, by decide⟩
